import Mathlib

/-!
Shallow embedding of the `marvel-tech-test` repository: the signed Marvel
request builder (`server/marvel.js`), the response cache (`server/cache.js`),
the characters listing and upload handlers (`server/index.js`), the SQLite
persistence layer (`server/db.js`) and the upload form view (`src/Upload.jsx`),
together with proofs of the specified behaviour.

Machine integers are modelled as `Nat` with explicit `% 2^32` reductions.
-/

/-! ## UTF-8 and hex helpers -/

/-- UTF-8 encoding of a single Unicode code point, as a list of byte values. -/
def utf8Bytes (c : Nat) : List Nat :=
  if c < 128 then [c]
  else if c < 2048 then [192 + c / 64, 128 + c % 64]
  else if c < 65536 then [224 + c / 4096, 128 + (c / 64) % 64, 128 + c % 64]
  else [240 + c / 262144, 128 + (c / 4096) % 64, 128 + (c / 64) % 64, 128 + c % 64]

/-- UTF-8 byte sequence of a string. -/
def strBytes (s : String) : List Nat :=
  (s.data.map (fun ch => utf8Bytes ch.toNat)).flatten

/-- Lowercase hexadecimal digit for a value below 16. -/
def hexDigit (n : Nat) : Char :=
  if n < 10 then Char.ofNat (48 + n) else Char.ofNat (87 + n)

/-- Uppercase hexadecimal digit for a value below 16. -/
def hexDigitUpper (n : Nat) : Char :=
  if n < 10 then Char.ofNat (48 + n) else Char.ofNat (55 + n)

/-- Two lowercase hex digits of a byte. -/
def byteHex (b : Nat) : List Char := [hexDigit (b / 16), hexDigit (b % 16)]

/-- Two uppercase hex digits of a byte. -/
def byteHexUpper (b : Nat) : List Char := [hexDigitUpper (b / 16), hexDigitUpper (b % 16)]

/-! ## MD5 (the `crypto` md5 digest used by `server/marvel.js`) -/

/-- 32-bit left rotation on `Nat`, result reduced mod `2^32`. -/
def rotl32 (x n : Nat) : Nat := ((x <<< n) ||| (x >>> (32 - n))) % 4294967296

/-- MD5 per-round shift amounts. -/
def md5S : List Nat :=
  [7, 12, 17, 22, 7, 12, 17, 22, 7, 12, 17, 22, 7, 12, 17, 22,
   5, 9, 14, 20, 5, 9, 14, 20, 5, 9, 14, 20, 5, 9, 14, 20,
   4, 11, 16, 23, 4, 11, 16, 23, 4, 11, 16, 23, 4, 11, 16, 23,
   6, 10, 15, 21, 6, 10, 15, 21, 6, 10, 15, 21, 6, 10, 15, 21]

/-- MD5 sine-derived round constants `floor(2^32 * abs(sin(i+1)))`. -/
def md5K : List Nat :=
  [3614090360, 3905402710, 606105819, 3250441966, 4118548399, 1200080426, 2821735955, 4249261313,
   1770035416, 2336552879, 4294925233, 2304563134, 1804603682, 4254626195, 2792965006, 1236535329,
   4129170786, 3225465664, 643717713, 3921069994, 3593408605, 38016083, 3634488961, 3889429448,
   568446438, 3275163606, 4107603335, 1163531501, 2850285829, 4243563512, 1735328473, 2368359562,
   4294588738, 2272392833, 1839030562, 4259657740, 2763975236, 1272893353, 4139469664, 3200236656,
   681279174, 3936430074, 3572445317, 76029189, 3654602809, 3873151461, 530742520, 3299628645,
   4096336452, 1126891415, 2878612391, 4237533241, 1700485571, 2399980690, 4293915773, 2240044497,
   1873313359, 4264355552, 2734768916, 1309151649, 4149444226, 3174756917, 718787259, 3951481745]

/-- Little-endian 8-byte encoding of the bit length of an `l`-byte message. -/
def md5LenBytes (l : Nat) : List Nat :=
  (List.range 8).map (fun i => ((8 * l) >>> (8 * i)) % 256)

/-- MD5 padding: append `0x80`, zero bytes to 56 mod 64, then the 64-bit length. -/
def md5Pad (m : List Nat) : List Nat :=
  m ++ [128] ++ List.replicate ((120 - ((m.length + 1) % 64)) % 64) 0 ++ md5LenBytes m.length

/-- Little-endian 32-bit word read at byte offset `i`. -/
def wordAt (bs : List Nat) (i : Nat) : Nat :=
  bs.getD i 0 + 256 * bs.getD (i + 1) 0 + 65536 * bs.getD (i + 2) 0 + 16777216 * bs.getD (i + 3) 0

/-- The sixteen 32-bit message words of block number `b`. -/
def blockWords (bs : List Nat) (b : Nat) : List Nat :=
  (List.range 16).map (fun j => wordAt bs (64 * b + 4 * j))

/-- One MD5 round `i` on the running `(a, b, c, d)` state. -/
def md5Step (M : List Nat) (st : Nat × Nat × Nat × Nat) (i : Nat) : Nat × Nat × Nat × Nat :=
  let (a, b, c, d) := st
  let f :=
    if i < 16 then (b &&& c) ||| ((b ^^^ 4294967295) &&& d)
    else if i < 32 then (d &&& b) ||| ((d ^^^ 4294967295) &&& c)
    else if i < 48 then b ^^^ c ^^^ d
    else c ^^^ (b ||| (d ^^^ 4294967295))
  let g :=
    if i < 16 then i
    else if i < 32 then (5 * i + 1) % 16
    else if i < 48 then (3 * i + 5) % 16
    else (7 * i) % 16
  let t := (f + a + md5K.getD i 0 + M.getD g 0) % 4294967296
  (d, (b + rotl32 t (md5S.getD i 0)) % 4294967296, b, c)

/-- Process one 64-byte block, folding the 64 rounds and adding into the state. -/
def md5Block (bs : List Nat) (b : Nat) (st : Nat × Nat × Nat × Nat) : Nat × Nat × Nat × Nat :=
  let M := blockWords bs b
  let (a, b', c, d) := (List.range 64).foldl (md5Step M) st
  ((st.1 + a) % 4294967296, (st.2.1 + b') % 4294967296,
   (st.2.2.1 + c) % 4294967296, (st.2.2.2 + d) % 4294967296)

/-- Little-endian byte expansion of a 32-bit word. -/
def wordLE (w : Nat) : List Nat := [w % 256, (w >>> 8) % 256, (w >>> 16) % 256, (w >>> 24) % 256]

/-- MD5 digest of a byte sequence, as 16 bytes. -/
def md5Bytes (msg : List Nat) : List Nat :=
  let p := md5Pad msg
  let st := (List.range (p.length / 64)).foldl (fun st blk => md5Block p blk st)
    (1732584193, 4023233417, 2562383102, 271733878)
  wordLE st.1 ++ wordLE st.2.1 ++ wordLE st.2.2.1 ++ wordLE st.2.2.2

/-- MD5 digest of a string's UTF-8 bytes, rendered as lowercase hexadecimal. -/
def md5Hex (s : String) : String :=
  String.mk ((md5Bytes (strBytes s)).map byteHex).flatten

/-! ## URLSearchParams serialization and JS object spread (`server/marvel.js`) -/

/-- Encoding of one character per application/x-www-form-urlencoded: alphanumerics
and `*-._` pass through, space becomes `+`, everything else is percent-encoded
per UTF-8 byte with uppercase hex. -/
def formChar (c : Char) : String :=
  if c.isAlphanum || c = '*' || c = '-' || c = '.' || c = '_' then String.singleton c
  else if c = ' ' then "+"
  else String.join ((utf8Bytes c.toNat).map (fun b => "%" ++ String.mk (byteHexUpper b)))

/-- Encoding of a whole string per application/x-www-form-urlencoded. -/
def formEncode (s : String) : String := String.join (s.data.map formChar)

/-- Serialization done by URLSearchParams toString on an ordered list of key/value pairs. -/
def encodeQuery (ps : List (String × String)) : String :=
  String.intercalate "&" (ps.map (fun kv => formEncode kv.1 ++ "=" ++ formEncode kv.2))

/-- Value of the last binding of key `k` in `xs`, if any. -/
def lookupLast (xs : List (String × String)) (k : String) : Option String :=
  ((xs.filter (fun kv => kv.1 = k)).getLast?).map (fun kv => kv.2)

/-- JS object literal `{ ...base entries..., ...extra }` (for `extra` with
distinct keys): keys of `base` keep their position, their value overridden by
`extra` when it also binds them; keys new in `extra` are appended in order. -/
def objSpread (base extra : List (String × String)) : List (String × String) :=
  base.map (fun kv => (kv.1, (lookupLast extra kv.1).getD kv.2))
    ++ extra.filter (fun kv => base.all (fun b => b.1 ≠ kv.1))

/-! ## `server/marvel.js` — the signed request builder -/

/-- Fixed upstream base URL. -/
def base : String := "https://gateway.marvel.com/v1/public"

/-- The function url of server/marvel.js, with the environment keys and
the `Date.now()` timestamp made explicit parameters: hashes
`ts + privateKey + publicKey`, builds `URLSearchParams({ts, apikey, hash,
...extra})` and concatenates base, path, `?` and the query string. -/
def url (pub priv : String) (ts : Nat) (path : String)
    (extra : List (String × String)) : String :=
  let hash := md5Hex (toString ts ++ priv ++ pub)
  let params := objSpread [("ts", toString ts), ("apikey", pub), ("hash", hash)] extra
  base ++ path ++ "?" ++ encodeQuery params

/-! ## `server/db.js` — persistence layer -/

/-- One row of a parsed upload, as `server/index.js` builds it: each field is
the row record's `A`/`B`/`C` property, `none` modelling a JS `undefined`
(a property absent from the record). -/
structure UploadRow where
  col_a : Option String
  col_b : Option String
  col_c : Option String
deriving Repr, DecidableEq

/-- The `upload_rows` table contents: committed `(col_a, col_b, col_c)` rows. -/
structure DBState where
  rows : List (String × String × String)
deriving Repr, DecidableEq

/-- One prepared INSERT attempt, the statement run of db.js.
`better-sqlite3` rejects an `undefined` binding with a `TypeError`; an
injectable database-level failure for a row (disk, constraint) is supplied
through the `oracle` parameter. -/
def stmtRun (oracle : UploadRow → Option String) (s : DBState) (r : UploadRow) :
    Except String DBState :=
  match r.col_a, r.col_b, r.col_c with
  | some a, some b, some c =>
    match oracle r with
    | some e => .error e
    | none => .ok ⟨s.rows ++ [(a, b, c)]⟩
  | _, _, _ => .error "TypeError: SQLite3 can only bind numbers, strings, bigints, buffers, and null"

/-- The body of the `db.transaction` callback: run the prepared insert for
each row in order, stopping at the first failure. -/
def runInserts (oracle : UploadRow → Option String) (s : DBState) :
    List UploadRow → Except String DBState
  | [] => .ok s
  | r :: rs =>
    match stmtRun oracle s r with
    | .error e => .error e
    | .ok s' => runInserts oracle s' rs

/-- The function bulkInsert of server/db.js: the insert loop wrapped in a
single `better-sqlite3` transaction — if any insert throws, the transaction
is rolled back (the table is left as it was) and the error propagates;
otherwise all inserts are committed. Returns the resulting table and the
propagated error, if any. -/
def bulkInsert (oracle : UploadRow → Option String) (s : DBState)
    (rows : List UploadRow) : DBState × Option String :=
  match runInserts oracle s rows with
  | .ok s' => (s', none)
  | .error e => (s, some e)

/-! ## JS number coercion (`+req.query.page || 1` in `server/index.js`) -/

/-- JS numbers as this server manipulates them: an integer or `NaN`
(the handlers only ever do integer arithmetic on them). -/
inductive JSNum where
  | nan : JSNum
  | int : Int → JSNum
deriving Repr, DecidableEq

/-- Whitespace stripped by ToNumber before reading a numeric literal. -/
def isStrWhitespace (c : Char) : Bool :=
  c = ' ' || c = '\t' || c = '\n' || c = '\r' || c = '\x0b' || c = '\x0c'

/-- Characters of a string with leading and trailing whitespace removed. -/
def trimChars (l : List Char) : List Char :=
  ((l.dropWhile isStrWhitespace).reverse.dropWhile isStrWhitespace).reverse

/-- Value of a run of decimal digits. -/
def digitsVal (l : List Char) : Nat :=
  l.foldl (fun acc c => 10 * acc + (c.toNat - 48)) 0

/-- ECMAScript `ToNumber` on a possibly-absent string (the effect of the
unary `+`), on the fragment the page parameter exercises: `undefined` is
`NaN`; a string is trimmed, the empty string is `0`, an optionally signed
run of decimal digits is its value, anything else is `NaN`. -/
def jsToNumber : Option String → JSNum
  | none => .nan
  | some s =>
    let t := trimChars s.data
    if t = [] then .int 0
    else if t.all Char.isDigit then .int (digitsVal t)
    else if t.head? = some '-' ∧ t.tail ≠ [] ∧ t.tail.all Char.isDigit then
      .int (-(digitsVal t.tail))
    else .nan

/-- The JS or-fallback `x || 1`, taking the default when `x` is falsy
(`NaN` or `0`). -/
def jsOrOne : JSNum → Int
  | .nan => 1
  | .int n => if n = 0 then 1 else n

/-- Page coercion `+req.query.page || 1` from the characters handler. -/
def pageOf (q : Option String) : Int := jsOrOne (jsToNumber q)

/-! ## `server/cache.js` — response cache -/

/-- A character as the characters handler returns it to the browser. -/
structure Character where
  id : Int
  name : String
  thumbnail : String
deriving Repr, DecidableEq

/-- One cache entry: key, expiry instant, cached payload. -/
structure CacheEntry where
  key : String
  expiry : Nat
  value : List Character
deriving Repr, DecidableEq

/-- Modelled from the spec: `server/cache.js` is not among the sources (only
its import and the documentation excerpt `new NodeCache({ stdTTL: 600 })`
are); a process-lifetime key/value store whose entries expire 600 seconds
after they are written. Time is an explicit `now` parameter in seconds. -/
structure Cache where
  entries : List CacheEntry
deriving Repr, DecidableEq

/-- Modelled from the spec: the cache time-to-live, 600 seconds. -/
def cacheTTL : Nat := 600

/-- The entry stored under `k`, expired or not. -/
def Cache.find (c : Cache) (k : String) : Option CacheEntry :=
  c.entries.find? (fun e => e.key = k)

/-- Modelled from the spec: `cache.has(key)` — true when an unexpired entry
exists for the key. -/
def Cache.has (c : Cache) (now : Nat) (k : String) : Bool :=
  match c.find k with
  | some e => now < e.expiry
  | none => false

/-- Modelled from the spec: `cache.get(key)` — the stored value when
unexpired, absent otherwise. -/
def Cache.get (c : Cache) (now : Nat) (k : String) : Option (List Character) :=
  if c.has now k then (c.find k).map (fun e => e.value) else none

/-- Modelled from the spec: `cache.set(key, value)` — stores `value` under
`key` with a freshly started 600-second expiry, replacing any prior entry. -/
def Cache.set (c : Cache) (now : Nat) (k : String) (v : List Character) : Cache :=
  ⟨⟨k, now + cacheTTL, v⟩ :: c.entries.filter (fun e => e.key ≠ k)⟩

/-! ## `server/index.js` — GET `/api/characters` -/

/-- The `thumbnail` sub-record of an upstream result. -/
structure Thumb where
  path : String
  extension : String
deriving Repr, DecidableEq

/-- One record of the upstream envelope's `data.data.results[]`. -/
structure UpResult where
  id : Int
  name : String
  thumbnail : Thumb
deriving Repr, DecidableEq

/-- Removal of every space character, as the regex replace in the handler does. -/
def stripSpaces (s : String) : String := String.mk (s.data.filter (fun c => c ≠ ' '))

/-- The payload mapping of the characters handler: id and name verbatim,
thumbnail `` `${path}/standard_medium.${extension}` `` with spaces removed. -/
def mapResult (ch : UpResult) : Character :=
  ⟨ch.id, ch.name, stripSpaces (ch.thumbnail.path ++ "/standard_medium." ++ ch.thumbnail.extension)⟩

/-- Outcome of the `axios.get` to the upstream URL, when it is issued. -/
inductive UpstreamOutcome where
  | success : List UpResult → UpstreamOutcome
  | failure : String → UpstreamOutcome
deriving Repr, DecidableEq

/-- What one run of the characters handler did and answered. -/
structure CharsResult where
  status : Nat
  payload : Option (List Character)
  error : Option String
  calledUpstream : Bool
  requestedUrl : Option String
  cache : Cache
deriving Repr, DecidableEq

/-- The `GET /api/characters` handler of `server/index.js`, with the clock
(`now`, seconds, for the cache; `ts`, for `Date.now()` inside `url`), the
environment keys and the upstream outcome made explicit: coerce the page,
serve an unexpired cache entry directly, otherwise build the signed URL with
`offset = (page - 1) * 50` and `limit = 50`, call upstream, map the results,
cache and return them, or answer 500 with the failure. -/
def charsHandler (pub priv : String) (c : Cache) (now ts : Nat)
    (pageQ : Option String) (upstream : UpstreamOutcome) : CharsResult :=
  let page : Int := pageOf pageQ
  let limit : Int := 50
  let key := "chars:" ++ toString page
  if c.has now key then
    { status := 200, payload := c.get now key, error := none,
      calledUpstream := false, requestedUrl := none, cache := c }
  else
    let u := url pub priv ts "/characters"
      [("offset", toString ((page - 1) * limit)), ("limit", toString limit)]
    match upstream with
    | .success results =>
      let payload := results.map mapResult
      { status := 200, payload := some payload, error := none,
        calledUpstream := true, requestedUrl := some u, cache := c.set now key payload }
    | .failure msg =>
      { status := 500, payload := none, error := some msg,
        calledUpstream := true, requestedUrl := some u, cache := c }

/-! ## `server/index.js` — POST `/api/upload` -/

/-- The first sheet of the uploaded workbook, as a grid: the header row and
the data rows, a missing cell being `none`. -/
structure Sheet where
  headers : List String
  data : List (List (Option String))
deriving Repr, DecidableEq

/-- One data row turned into a record, as `xlsx.utils.sheet_to_json(sheet,
{ defval: "" })` does: one field per header, a missing cell (or a row ending
early) becoming the `defval` empty string. -/
def rowRecord : List String → List (Option String) → List (String × String)
  | [], _ => []
  | h :: hs, [] => (h, "") :: rowRecord hs []
  | h :: hs, cell :: cs => (h, cell.getD "") :: rowRecord hs cs

/-- The call sheet_to_json of the xlsx library with defval the empty string:
the ordered list of row records. -/
def sheetToJson (sh : Sheet) : List (List (String × String)) :=
  sh.data.map (rowRecord sh.headers)

/-- JS property read `r[k]` on a record: the bound value, or `none` for
`undefined` when the record has no such field. -/
def recGet (rec : List (String × String)) (k : String) : Option String :=
  (rec.find? (fun kv => kv.1 = k)).map (fun kv => kv.2)

/-- Record-to-row mapping `json.map(r => ({ col_a: r.A, col_b: r.B, col_c: r.C }))`. -/
def mapRecord (rec : List (String × String)) : UploadRow :=
  ⟨recGet rec "A", recGet rec "B", recGet rec "C"⟩

/-- The JSON answer of the upload endpoint. -/
structure UploadResp where
  status : Nat
  inserted : Option Nat
  error : Option String
deriving Repr, DecidableEq

/-- The `POST /api/upload` handler of `server/index.js`: reading and parsing
the workbook is summarized as an `Except` (its `error` the thrown message);
on a parsed sheet the handler maps the records, bulk-inserts them and answers
200 with the row count, while any thrown error is caught and answered as 500
with the error's message. -/
def uploadHandler (oracle : UploadRow → Option String) (s : DBState)
    (parsed : Except String Sheet) : UploadResp × DBState :=
  match parsed with
  | .error e => ({ status := 500, inserted := none, error := some e }, s)
  | .ok sh =>
    let rows := (sheetToJson sh).map mapRecord
    match bulkInsert oracle s rows with
    | (s', none) => ({ status := 200, inserted := some rows.length, error := none }, s')
    | (_, some e) => ({ status := 500, inserted := none, error := some e }, s)

/-! ## `src/Upload.jsx` — the upload view's status message -/

/-- The message set by Upload.jsx after a submission,
`j.inserted ? ... : j.error`, given the response JSON's
`inserted` and `error` fields (`none` for an absent field; the result is
`none` when the chosen value is itself `undefined`). JS truthiness: an
absent `inserted` and the number `0` are both falsy. -/
def onSubmitMsg : Option Nat → Option String → Option String
  | some n, err => if n ≠ 0 then some ("Inserted " ++ toString n ++ " rows") else err
  | none, err => err

/-! ## Helper lemmas -/

theorem filter_key_nil (k : String) (xs : List (String × String))
    (h : ∀ kv ∈ xs, kv.1 ≠ k) : xs.filter (fun kv => kv.1 = k) = [] := by
  induction xs with
  | nil => rfl
  | cons x xs ih =>
    simp only [List.filter_cons]
    rw [if_neg (by simpa using h x (List.mem_cons_self _ _))]
    exact ih (fun kv hkv => h kv (List.mem_cons_of_mem _ hkv))

theorem lookupLast_none (xs : List (String × String)) (k : String)
    (h : ∀ kv ∈ xs, kv.1 ≠ k) : lookupLast xs k = none := by
  unfold lookupLast
  rw [filter_key_nil k xs h]
  rfl

/-- Rows whose prepared insert succeeds: all three bindings defined and no
injected database failure. -/
def rowOk (oracle : UploadRow → Option String) (r : UploadRow) : Prop :=
  r.col_a.isSome = true ∧ r.col_b.isSome = true ∧ r.col_c.isSome = true ∧ oracle r = none

instance (oracle : UploadRow → Option String) (r : UploadRow) :
    Decidable (rowOk oracle r) := by unfold rowOk; infer_instance

/-- The committed triple of a fully defined row. -/
def rowTriple (r : UploadRow) : String × String × String :=
  (r.col_a.getD "", r.col_b.getD "", r.col_c.getD "")

theorem stmtRun_ok (oracle : UploadRow → Option String) (s : DBState) (r : UploadRow)
    (h : rowOk oracle r) : stmtRun oracle s r = .ok ⟨s.rows ++ [rowTriple r]⟩ := by
  obtain ⟨ha, hb, hc, ho⟩ := h
  rcases r with ⟨a, b, c⟩
  cases a <;> cases b <;> cases c <;> simp_all [stmtRun, rowTriple]

theorem stmtRun_err (oracle : UploadRow → Option String) (s : DBState) (r : UploadRow)
    (h : ¬ rowOk oracle r) : ∃ e, stmtRun oracle s r = .error e := by
  rcases r with ⟨a, b, c⟩
  cases a <;> cases b <;> cases c <;>
    first
      | exact ⟨_, rfl⟩
      | (rcases ho : oracle ⟨some _, some _, some _⟩ with _ | e
         · exact absurd ⟨rfl, rfl, rfl, ho⟩ h
         · exact ⟨e, by simp [stmtRun, ho]⟩)

theorem runInserts_ok (oracle : UploadRow → Option String) (rows : List UploadRow) :
    ∀ s : DBState, (∀ r ∈ rows, rowOk oracle r) →
      runInserts oracle s rows = .ok ⟨s.rows ++ rows.map rowTriple⟩ := by
  induction rows with
  | nil => intro s _; simp [runInserts]
  | cons r rs ih =>
    intro s h
    rw [runInserts, stmtRun_ok oracle s r (h r (List.mem_cons_self _ _))]
    show runInserts oracle ⟨s.rows ++ [rowTriple r]⟩ rs = _
    rw [ih _ (fun x hx => h x (List.mem_cons_of_mem _ hx))]
    simp

theorem runInserts_err (oracle : UploadRow → Option String) (rows : List UploadRow) :
    ∀ s : DBState, (∃ r ∈ rows, ¬ rowOk oracle r) →
      ∃ e, runInserts oracle s rows = .error e := by
  induction rows with
  | nil => intro s h; simp at h
  | cons r rs ih =>
    intro s h
    by_cases hr : rowOk oracle r
    · obtain ⟨x, hx, hbad⟩ := h
      rcases List.mem_cons.mp hx with rfl | hx'
      · exact absurd hr hbad
      · rw [runInserts, stmtRun_ok oracle s r hr]
        show ∃ e, runInserts oracle ⟨s.rows ++ [rowTriple r]⟩ rs = .error e
        exact ih _ ⟨x, hx', hbad⟩
    · obtain ⟨e, he⟩ := stmtRun_err oracle s r hr
      exact ⟨e, by rw [runInserts, he]⟩

/-! ## C1 — bulkInsert is all-or-nothing -/

/-- C1: for every ordered sequence of rows, `bulkInsert` commits all of them
(appending them in order to `upload_rows`) and reports no error when every
per-row insert succeeds; if any insert fails, the table is exactly as before
the call and the error propagates to the caller. -/
theorem bulkInsert_atomic (oracle : UploadRow → Option String) (s : DBState)
    (rows : List UploadRow) :
    ((∀ r ∈ rows, rowOk oracle r) →
      bulkInsert oracle s rows = (⟨s.rows ++ rows.map rowTriple⟩, none)) ∧
    ((∃ r ∈ rows, ¬ rowOk oracle r) →
      (bulkInsert oracle s rows).1 = s ∧ ((bulkInsert oracle s rows).2).isSome = true) := by
  constructor
  · intro h
    unfold bulkInsert
    rw [runInserts_ok oracle rows s h]
  · intro h
    obtain ⟨e, he⟩ := runInserts_err oracle rows s h
    unfold bulkInsert
    rw [he]
    exact ⟨rfl, rfl⟩

/-- Failure-injecting oracle used by the concrete batches below: the insert
of any row whose second column is the text "boom" fails. -/
def wOracle : UploadRow → Option String :=
  fun r => if r.col_b = some "boom" then some "SqliteError: constraint failed" else none

/-- A table holding one committed row before the calls below. -/
def wDB : DBState := ⟨[("p", "q", "r")]⟩

/-- Three rows whose second insert fails under `wOracle`. -/
def wRows : List UploadRow :=
  [⟨some "a1", some "b1", some "c1"⟩,
   ⟨some "a2", some "boom", some "c2"⟩,
   ⟨some "a3", some "b3", some "c3"⟩]

/-- Witness for C1: a clean one-row batch commits; injecting a failure on the
second of three rows leaves the table's rows unchanged and surfaces an error. -/
theorem bulkInsert_atomic_witness :
    bulkInsert wOracle wDB [⟨some "a1", some "b1", some "c1"⟩] =
      (⟨wDB.rows ++ [("a1", "b1", "c1")]⟩, none) ∧
    (bulkInsert wOracle wDB wRows).1 = wDB ∧
    ((bulkInsert wOracle wDB wRows).2).isSome = true := by
  refine ⟨?_, ?_⟩
  · have h := (bulkInsert_atomic wOracle wDB [⟨some "a1", some "b1", some "c1"⟩]).1
      (by decide)
    simpa [rowTriple] using h
  · exact (bulkInsert_atomic wOracle wDB wRows).2
      ⟨⟨some "a2", some "boom", some "c2"⟩, by decide, by decide⟩

/-! ## C4 — upload endpoint responses -/

/-- C4: the upload endpoint answers a parse/read failure with 500 and the
error's message; when every mapped row inserts cleanly it answers 200 with
`inserted` equal to the number of mapped rows (committing them); when any
insert fails it answers 500 with an error and no inserted count, leaving the
table unchanged. -/
theorem upload_endpoint_responses (oracle : UploadRow → Option String) (s : DBState)
    (sh : Sheet) (emsg : String) :
    (uploadHandler oracle s (.error emsg) =
      ({ status := 500, inserted := none, error := some emsg }, s)) ∧
    ((∀ r ∈ (sheetToJson sh).map mapRecord, rowOk oracle r) →
      uploadHandler oracle s (.ok sh) =
        ({ status := 200, inserted := some ((sheetToJson sh).map mapRecord).length,
           error := none },
         ⟨s.rows ++ ((sheetToJson sh).map mapRecord).map rowTriple⟩)) ∧
    ((∃ r ∈ (sheetToJson sh).map mapRecord, ¬ rowOk oracle r) →
      (uploadHandler oracle s (.ok sh)).1.status = 500 ∧
      (((uploadHandler oracle s (.ok sh)).1.error).isSome = true) ∧
      (uploadHandler oracle s (.ok sh)).1.inserted = none ∧
      (uploadHandler oracle s (.ok sh)).2 = s) := by
  refine ⟨rfl, ?_, ?_⟩
  · intro h
    have hb : bulkInsert oracle s ((sheetToJson sh).map mapRecord) =
        (⟨s.rows ++ ((sheetToJson sh).map mapRecord).map rowTriple⟩, none) := by
      unfold bulkInsert
      rw [runInserts_ok oracle _ s h]
    simp only [uploadHandler, hb]
  · intro h
    obtain ⟨e, he⟩ := runInserts_err oracle ((sheetToJson sh).map mapRecord) s h
    have hb : bulkInsert oracle s ((sheetToJson sh).map mapRecord) = (s, some e) := by
      unfold bulkInsert
      rw [he]
    simp only [uploadHandler, hb]
    exact ⟨trivial, rfl, trivial, trivial⟩

/-- A one-data-row sheet with a missing C cell, inserting cleanly. -/
def wSheetOk : Sheet := ⟨["A", "B", "C"], [[some "x", some "y", none]]⟩

/-- A one-data-row sheet whose insert fails under `wOracle`. -/
def wSheetBoom : Sheet := ⟨["A", "B", "C"], [[some "a", some "boom", some "c"]]⟩

/-- Witness for C4: a parse failure answers 500 with its message; a clean
one-row sheet answers 200 with inserted 1; a failing insert answers 500. -/
theorem upload_endpoint_responses_witness :
    uploadHandler wOracle wDB (.error "bad file") =
      ({ status := 500, inserted := none, error := some "bad file" }, wDB) ∧
    uploadHandler wOracle wDB (.ok wSheetOk) =
      ({ status := 200, inserted := some 1, error := none },
       ⟨wDB.rows ++ [("x", "y", "")]⟩) ∧
    (uploadHandler wOracle wDB (.ok wSheetBoom)).1.status = 500 := by
  refine ⟨(upload_endpoint_responses wOracle wDB wSheetOk "bad file").1, ?_, ?_⟩
  · have h := (upload_endpoint_responses wOracle wDB wSheetOk "bad file").2.1 (by decide)
    rw [h]
    rfl
  · exact ((upload_endpoint_responses wOracle wDB wSheetBoom "bad file").2.2
      ⟨⟨some "a", some "boom", some "c"⟩, by decide, by decide⟩).1

/-! ## C10 — empty sheet uploads succeed with zero rows -/

/-- C10: an uploaded workbook whose first sheet has zero data rows still
succeeds — `bulkInsert` runs on the empty sequence, the transaction commits
leaving `upload_rows` unchanged, and the endpoint answers 200 with
inserted 0. -/
theorem upload_empty_sheet (oracle : UploadRow → Option String) (s : DBState)
    (headers : List String) :
    uploadHandler oracle s (.ok ⟨headers, []⟩) =
      ({ status := 200, inserted := some 0, error := none }, s) := rfl

/-! ## C5 — character payload mapping -/

/-- C5: the characters payload mapping takes id and name verbatim and builds
the thumbnail as path, the fixed segment `/standard_medium.` and the
extension, with every space character removed; in particular the upstream
record with path `http://example.com/pic 1` and extension `jpg` yields
`http://example.com/pic1/standard_medium.jpg`. -/
theorem characters_thumbnail_mapping :
    (∀ ch : UpResult,
      (mapResult ch).id = ch.id ∧ (mapResult ch).name = ch.name ∧
      (mapResult ch).thumbnail =
        stripSpaces (ch.thumbnail.path ++ "/standard_medium." ++ ch.thumbnail.extension) ∧
      ((mapResult ch).thumbnail.data.all (fun c => c ≠ ' ')) = true) ∧
    mapResult ⟨7, "x", ⟨"http://example.com/pic 1", "jpg"⟩⟩ =
      ⟨7, "x", "http://example.com/pic1/standard_medium.jpg"⟩ := by
  constructor
  · intro ch
    refine ⟨rfl, rfl, rfl, ?_⟩
    rw [List.all_eq_true]
    intro c hc
    exact (List.mem_filter.mp hc).2
  · decide

/-! ## C2 — the signed request builder -/

/-- C2: for every path and extra-parameter list (whose keys avoid the three
authentication keys), `url` is the fixed base, the path, `?` and the
URL-encoded query whose entries are, in order, `ts`, `apikey` with the public
key, `hash` — the lowercase hex MD5 of the timestamp, private key and public
key concatenated in that order — and then every extra entry. -/
theorem url_spec (pub priv : String) (ts : Nat) (path : String)
    (extra : List (String × String))
    (h : ∀ kv ∈ extra, kv.1 ≠ "ts" ∧ kv.1 ≠ "apikey" ∧ kv.1 ≠ "hash") :
    url pub priv ts path extra =
      base ++ path ++ "?" ++
        encodeQuery ([("ts", toString ts), ("apikey", pub),
          ("hash", md5Hex (toString ts ++ priv ++ pub))] ++ extra) := by
  have h1 : lookupLast extra "ts" = none :=
    lookupLast_none extra "ts" (fun kv hkv => (h kv hkv).1)
  have h2 : lookupLast extra "apikey" = none :=
    lookupLast_none extra "apikey" (fun kv hkv => (h kv hkv).2.1)
  have h3 : lookupLast extra "hash" = none :=
    lookupLast_none extra "hash" (fun kv hkv => (h kv hkv).2.2)
  have h4 : extra.filter (fun kv =>
      ([(("ts" : String), toString ts), ("apikey", pub),
        ("hash", md5Hex (toString ts ++ priv ++ pub))].all (fun b => b.1 ≠ kv.1))) = extra := by
    rw [List.filter_eq_self]
    intro kv hkv
    have := h kv hkv
    simp only [List.all_cons, List.all_nil, Bool.and_true, Bool.and_eq_true,
      decide_eq_true_eq]
    exact ⟨Ne.symm this.1, Ne.symm this.2.1, Ne.symm this.2.2⟩
  unfold url objSpread
  simp only [List.map_cons, List.map_nil, h1, h2, h3, Option.getD_none, h4]

set_option maxRecDepth 100000 in
/-- Witness for C2: with public key `pub`, private key `priv`, timestamp
1700000000000, path `/characters` and extras offset 0 and limit 50, the full
URL — its hash being the lowercase hex MD5 of `1700000000000privpub`. -/
theorem url_spec_witness :
    url "pub" "priv" 1700000000000 "/characters" [("offset", "0"), ("limit", "50")] =
      "https://gateway.marvel.com/v1/public/characters?ts=1700000000000&apikey=pub&hash=a5b63257d9bcf7c267abefb2c62986bb&offset=0&limit=50" ∧
    md5Hex "1700000000000privpub" = "a5b63257d9bcf7c267abefb2c62986bb" := by
  constructor
  · have h := url_spec "pub" "priv" 1700000000000 "/characters"
      [("offset", "0"), ("limit", "50")] (by decide)
    rw [h]
    rfl
  · rfl

/-! ## C6 — page coercion -/

/-- Counterexample to C6 as stated: the page value `0` is not accepted as-is;
being falsy it is replaced by the default 1. -/
theorem page_zero_counterexample :
    pageOf (some "0") = 1 ∧ pageOf (some "0") ≠ 0 := by decide

/-- C6 as amended: the page parameter is coerced to a number; when it is
absent or the coercion fails the page silently defaults to 1; no upper bound
is enforced and any nonzero value — negative values included — is accepted
as-is; but a zero page is falsy and likewise defaults to 1. -/
theorem page_coercion (q : Option String) (n : Int) :
    pageOf none = 1 ∧
    (jsToNumber q = .nan → pageOf q = 1) ∧
    (jsToNumber q = .int n → n ≠ 0 → pageOf q = n) ∧
    (jsToNumber q = .int 0 → pageOf q = 1) ∧
    pageOf (some "abc") = 1 ∧ pageOf (some "-2") = -2 ∧ pageOf (some "0") = 1 := by
  refine ⟨rfl, ?_, ?_, ?_, by decide, by decide, by decide⟩
  · intro h
    unfold pageOf
    rw [h]
    rfl
  · intro h hn
    unfold pageOf
    rw [h]
    simp [jsOrOne, hn]
  · intro h
    unfold pageOf
    rw [h]
    rfl

/-- Witness for C6: a negative page is taken as-is, a non-numeric page
defaults to 1. -/
theorem page_coercion_witness :
    pageOf (some "-7") = -7 ∧ pageOf (some "1x") = 1 := by
  refine ⟨(page_coercion (some "-7") (-7)).2.2.1 (by decide) (by decide), ?_⟩
  exact (page_coercion (some "1x") 1).2.1 (by decide)

/-! ## C9 — upload view status message -/

/-- Counterexample to C9 as stated: a response carrying the inserted count 0
(a successful upload of an empty sheet) does not produce the message text
with 0 rows — the count is falsy, so the message falls back to the absent
error field and stays empty. -/
theorem upload_view_zero_counterexample :
    onSubmitMsg (some 0) none ≠ some "Inserted 0 rows" ∧
    onSubmitMsg (some 0) none = none := by decide

/-- C9 as amended: the status message is set to the inserted-count text when
the response carries a nonzero inserted count, and to the response's error
field otherwise — also when the response carries the inserted count 0. -/
theorem upload_view_message (n : Nat) (err : Option String) :
    (n ≠ 0 → onSubmitMsg (some n) err = some ("Inserted " ++ toString n ++ " rows")) ∧
    onSubmitMsg (some 0) err = err ∧
    onSubmitMsg none err = err := by
  refine ⟨?_, ?_, rfl⟩
  · intro hn
    simp [onSubmitMsg, hn]
  · simp [onSubmitMsg]

/-- Witness for C9 as amended: inserted 5 shows the five-row message, a bare
error response shows its text. -/
theorem upload_view_message_witness :
    onSubmitMsg (some 5) none = some "Inserted 5 rows" ∧
    onSubmitMsg none (some "bad file") = some "bad file" := by
  constructor
  · have h := (upload_view_message 5 none).1 (by decide)
    rw [h]
    rfl
  · exact (upload_view_message 5 (some "bad file")).2.2

/-! ## Cache lemmas -/

theorem cache_find_set (c : Cache) (now : Nat) (k : String) (v : List Character) :
    (c.set now k v).find k = some ⟨k, now + cacheTTL, v⟩ := by
  simp [Cache.set, Cache.find]

theorem cache_has_set (c : Cache) (now now' : Nat) (k : String) (v : List Character) :
    (c.set now k v).has now' k = decide (now' < now + cacheTTL) := by
  rw [Cache.has, cache_find_set]

theorem cache_get_set_live (c : Cache) (now now' : Nat) (k : String) (v : List Character)
    (h : now' < now + cacheTTL) : (c.set now k v).get now' k = some v := by
  rw [Cache.get, cache_has_set]
  simp [h, cache_find_set]

/-! ## C7 — upstream pagination parameters -/

/-- C7: on a cache miss the characters handler requests the signed upstream
URL for the characters listing with offset (page - 1) * 50 and limit 50. -/
theorem characters_offset (pub priv : String) (c : Cache) (now ts : Nat)
    (q : Option String) (up : UpstreamOutcome)
    (hmiss : c.has now ("chars:" ++ toString (pageOf q)) = false) :
    (charsHandler pub priv c now ts q up).requestedUrl =
      some (url pub priv ts "/characters"
        [("offset", toString ((pageOf q - 1) * 50)), ("limit", toString (50 : Int))]) := by
  cases up <;> simp [charsHandler, hmiss]

set_option maxRecDepth 100000 in
/-- Witness for C7: for page 2 on an empty cache the handler requests the
upstream URL carrying offset 50 and limit 50. -/
theorem characters_offset_witness :
    (charsHandler "pub" "priv" ⟨[]⟩ 0 1700000000000 (some "2")
        (.success [])).requestedUrl =
      some "https://gateway.marvel.com/v1/public/characters?ts=1700000000000&apikey=pub&hash=a5b63257d9bcf7c267abefb2c62986bb&offset=50&limit=50" := by
  have h := characters_offset "pub" "priv" ⟨[]⟩ 0 1700000000000 (some "2")
    (.success []) (by decide)
  rw [h]
  rfl

/-! ## C8 — cache hits answer without an upstream call -/

/-- C8: a request finding an unexpired cache entry for its page key is
answered 200 with that entry and performs no upstream call; hence after a
first (miss) request succeeds at `t1`, a second request for the same page
before `t1 + 600` seconds calls upstream no second time and returns the
first call's payload unchanged, while a request at or after expiry calls
upstream again. -/
theorem characters_cache_behavior (pub priv : String) (c : Cache)
    (now1 now2 ts1 ts2 : Nat) (q : Option String) (res : List UpResult)
    (up2 : UpstreamOutcome)
    (hmiss : c.has now1 ("chars:" ++ toString (pageOf q)) = false) :
    (∀ (c' : Cache) (now' ts' : Nat) (up' : UpstreamOutcome),
        c'.has now' ("chars:" ++ toString (pageOf q)) = true →
        (charsHandler pub priv c' now' ts' q up').status = 200 ∧
        (charsHandler pub priv c' now' ts' q up').payload =
          c'.get now' ("chars:" ++ toString (pageOf q)) ∧
        (charsHandler pub priv c' now' ts' q up').calledUpstream = false) ∧
    (charsHandler pub priv c now1 ts1 q (.success res)).calledUpstream = true ∧
    (now2 < now1 + 600 →
      (charsHandler pub priv (charsHandler pub priv c now1 ts1 q (.success res)).cache
          now2 ts2 q up2).calledUpstream = false ∧
      (charsHandler pub priv (charsHandler pub priv c now1 ts1 q (.success res)).cache
          now2 ts2 q up2).payload = some (res.map mapResult)) ∧
    (now1 + 600 ≤ now2 →
      (charsHandler pub priv (charsHandler pub priv c now1 ts1 q (.success res)).cache
          now2 ts2 q up2).calledUpstream = true) := by
  have hcache : (charsHandler pub priv c now1 ts1 q (.success res)).cache =
      c.set now1 ("chars:" ++ toString (pageOf q)) (res.map mapResult) := by
    simp [charsHandler, hmiss]
  refine ⟨?_, ?_, ?_, ?_⟩
  · intro c' now' ts' up' h'
    refine ⟨?_, ?_, ?_⟩ <;> simp [charsHandler, h']
  · simp [charsHandler, hmiss]
  · intro hlive
    have hhit : (c.set now1 ("chars:" ++ toString (pageOf q)) (res.map mapResult)).has now2
        ("chars:" ++ toString (pageOf q)) = true := by
      rw [cache_has_set]
      simpa [cacheTTL] using hlive
    have hget : (c.set now1 ("chars:" ++ toString (pageOf q)) (res.map mapResult)).get now2
        ("chars:" ++ toString (pageOf q)) = some (res.map mapResult) :=
      cache_get_set_live _ _ _ _ _ (by simpa [cacheTTL] using hlive)
    rw [hcache]
    constructor
    · simp [charsHandler, hhit]
    · simp [charsHandler, hhit, hget]
  · intro hexp
    have hmiss2 : (c.set now1 ("chars:" ++ toString (pageOf q)) (res.map mapResult)).has now2
        ("chars:" ++ toString (pageOf q)) = false := by
      rw [cache_has_set]
      simp only [cacheTTL, decide_eq_false_iff_not, not_lt]
      omega
    rw [hcache]
    cases up2 <;> simp [charsHandler, hmiss2]

/-- Witness for C8: on an empty cache, a first request for page 1 calls
upstream; a second request 599 seconds later is served from the cache with
the first payload and no upstream call; a request 600 seconds later calls
upstream again. -/
theorem characters_cache_behavior_witness :
    (charsHandler "k" "s" ⟨[]⟩ 0 3 (some "1")
        (.success [⟨7, "x", ⟨"p", "jpg"⟩⟩])).calledUpstream = true ∧
    (charsHandler "k" "s"
        (charsHandler "k" "s" ⟨[]⟩ 0 3 (some "1")
          (.success [⟨7, "x", ⟨"p", "jpg"⟩⟩])).cache 599 4 (some "1")
        (.failure "down")).calledUpstream = false ∧
    (charsHandler "k" "s"
        (charsHandler "k" "s" ⟨[]⟩ 0 3 (some "1")
          (.success [⟨7, "x", ⟨"p", "jpg"⟩⟩])).cache 599 4 (some "1")
        (.failure "down")).payload =
      some ([⟨7, "x", ⟨"p", "jpg"⟩⟩].map mapResult) ∧
    (charsHandler "k" "s"
        (charsHandler "k" "s" ⟨[]⟩ 0 3 (some "1")
          (.success [⟨7, "x", ⟨"p", "jpg"⟩⟩])).cache 600 4 (some "1")
        (.failure "down")).calledUpstream = true := by
  have h := characters_cache_behavior "k" "s" ⟨[]⟩ 0 599 3 4 (some "1")
    [⟨7, "x", ⟨"p", "jpg"⟩⟩] (.failure "down") (by decide)
  have h' := characters_cache_behavior "k" "s" ⟨[]⟩ 0 600 3 4 (some "1")
    [⟨7, "x", ⟨"p", "jpg"⟩⟩] (.failure "down") (by decide)
  exact ⟨h.2.1, (h.2.2.1 (by decide)).1, (h.2.2.1 (by decide)).2, h'.2.2.2 (by decide)⟩

/-! ## C3 — sheet conversion and row mapping -/

theorem recGet_rowRecord (k : String) : ∀ (hs : List String) (cs : List (Option String)),
    k ∈ hs → ∃ v, recGet (rowRecord hs cs) k = some v := by
  intro hs
  induction hs with
  | nil => intro cs h; cases h
  | cons hh hs ih =>
    intro cs hk
    by_cases he : hh = k
    · cases cs with
      | nil => exact ⟨"", by simp [rowRecord, recGet, he]⟩
      | cons c cs => exact ⟨c.getD "", by simp [rowRecord, recGet, he]⟩
    · have hk' : k ∈ hs := by
        rcases List.mem_cons.mp hk with h | h
        · exact absurd h.symm he
        · exact h
      cases cs with
      | nil =>
        obtain ⟨v, hv⟩ := ih [] hk'
        exact ⟨v, by simpa [rowRecord, recGet, he] using hv⟩
      | cons c cs =>
        obtain ⟨v, hv⟩ := ih cs hk'
        exact ⟨v, by simpa [rowRecord, recGet, he] using hv⟩

/-- C3: the sheet conversion binds every header of every data row to a real
(possibly empty) string — no absent value survives it — so on a sheet with
A, B and C columns every mapped UploadRow has all three fields defined; in
particular a row whose C cell is entirely missing maps to a row whose
`col_c` is the empty string, not an absent value. -/
theorem upload_sheet_mapping (sh : Sheet)
    (hA : "A" ∈ sh.headers) (hB : "B" ∈ sh.headers) (hC : "C" ∈ sh.headers) :
    (∀ rec ∈ sheetToJson sh, ∀ k ∈ sh.headers, ∃ v, recGet rec k = some v) ∧
    (∀ rec ∈ sheetToJson sh, ∃ a b c, mapRecord rec = ⟨some a, some b, some c⟩) ∧
    (sheetToJson ⟨["A", "B", "C"], [[some "x", some "y"]]⟩).map mapRecord =
      [⟨some "x", some "y", some ""⟩] := by
  have hmem : ∀ rec ∈ sheetToJson sh, ∃ cs, rec = rowRecord sh.headers cs := by
    intro rec hrec
    obtain ⟨row, _, hrow⟩ := List.mem_map.mp hrec
    exact ⟨row, hrow.symm⟩
  refine ⟨?_, ?_, by decide⟩
  · intro rec hrec k hk
    obtain ⟨cs, rfl⟩ := hmem rec hrec
    exact recGet_rowRecord k sh.headers cs hk
  · intro rec hrec
    obtain ⟨cs, rfl⟩ := hmem rec hrec
    obtain ⟨a, ha⟩ := recGet_rowRecord "A" sh.headers cs hA
    obtain ⟨b, hb⟩ := recGet_rowRecord "B" sh.headers cs hB
    obtain ⟨c, hc⟩ := recGet_rowRecord "C" sh.headers cs hC
    exact ⟨a, b, c, by simp [mapRecord, ha, hb, hc]⟩

/-- Witness for C3: on the three-column sheet whose one data row stops after
column B, the mapped row binds `col_c` to the empty string. -/
theorem upload_sheet_mapping_witness :
    (sheetToJson ⟨["A", "B", "C"], [[some "x", some "y"]]⟩).map mapRecord =
      [⟨some "x", some "y", some ""⟩] ∧
    ∃ v, recGet (rowRecord ["A", "B", "C"] [some "x", some "y"]) "C" = some v := by
  have h := upload_sheet_mapping ⟨["A", "B", "C"], [[some "x", some "y"]]⟩
    (by decide) (by decide) (by decide)
  refine ⟨h.2.2, ?_⟩
  exact h.1 (rowRecord ["A", "B", "C"] [some "x", some "y"]) (by decide) "C" (by decide)
